import Mathlib

/-!
Shallow embedding of the MSCS-632 expense-tracker repository.

Two console variants and a Qt GUI share the same core: an append-only
in-memory list of expense records, linear-scan filters (date range,
category) and a fold-based aggregator (grand total, per-category totals).

Naming:
* `Expense`, `filterExpensesByDate`, `filterExpensesByCategory`,
  `showSummary`-style totals (`grandTotal`, `categoryTotals`) follow
  src/c++/expensetracker.cpp (console, ISO `YYYY-MM-DD` string dates).
* `parseDateToInteger` follows the second console variant (MM-DD-YYYY,
  strptime + mktime).
* `GExpense`, `applyFilters`, `onAddExpense`, `grandTotalG`,
  `categoryTotalsG` follow src/ExpenseTrackerGUI/mainwindow.cpp.
Amounts are embedded as exact rationals (`ℚ`) standing for the C++
`double` values; all claims are settled over exact arithmetic.
-/

namespace ExpenseTracker

/-- Console expense record (src/c++/expensetracker.cpp, struct Expense):
date is a textual date, amount a number, category and description text. -/
structure Expense where
  date : String
  amount : ℚ
  category : String
  description : String
deriving DecidableEq

/-- `::tolower` in the C locale: lower-case an ASCII capital letter,
leave every other character unchanged. -/
def tolower (c : Char) : Char :=
  if 'A' ≤ c ∧ c ≤ 'Z' then Char.ofNat (c.toNat + 32) else c

/-- `std::transform(..., ::tolower)` applied to a whole string. -/
def strLower (s : String) : String :=
  ⟨s.data.map tolower⟩

/-- Lexicographic `<=` on character lists, the order `std::string`'s
relational operators compute. -/
def charListLe : List Char → List Char → Bool
  | [], _ => true
  | _ :: _, [] => false
  | a :: as, b :: bs =>
    if a < b then true
    else if b < a then false
    else charListLe as bs

/-- `std::string` `operator<=`: lexicographic comparison. -/
def strLe (s t : String) : Bool := charListLe s.data t.data

/-- Console `filterExpensesByDate` (src/c++/expensetracker.cpp:72-93):
keeps `exp` when `exp.date >= startDateStr && exp.date <= endDateStr`
under lexicographic string comparison, in input order. -/
def filterExpensesByDate (expenses : List Expense)
    (startDateStr endDateStr : String) : List Expense :=
  expenses.filter fun exp =>
    strLe startDateStr exp.date && strLe exp.date endDateStr

/-- Console `filterExpensesByCategory` (src/c++/expensetracker.cpp:96-120):
keeps `exp` when the lower-cased category equals the lower-cased filter. -/
def filterExpensesByCategory (expenses : List Expense)
    (categoryFilter : String) : List Expense :=
  expenses.filter fun exp =>
    decide (strLower exp.category = strLower categoryFilter)

/-- One `categoryTotals[exp.category] += exp.amount` step on the model of
`std::map<std::string,double>`: a key-sorted association list with unique
keys; a missing key is inserted with the given amount. -/
def addToTotals : List (String × ℚ) → String → ℚ → List (String × ℚ)
  | [], k, v => [(k, v)]
  | (k', v') :: rest, k, v =>
    if k = k' then (k', v' + v) :: rest
    else if k < k' then (k, v) :: (k', v') :: rest
    else (k', v') :: addToTotals rest k v

/-- `overallTotal` accumulated by `showSummary`
(src/c++/expensetracker.cpp:123-145): left fold of `+= exp.amount` from 0. -/
def grandTotal (expenses : List Expense) : ℚ :=
  expenses.foldl (fun acc exp => acc + exp.amount) 0

/-- `categoryTotals` built by `showSummary`: fold of map-accumulation
steps starting from the empty map. -/
def categoryTotals (expenses : List Expense) : List (String × ℚ) :=
  expenses.foldl (fun m exp => addToTotals m exp.category exp.amount) []

/-- Console `addExpense`'s final `expenses.emplace_back(...)`
(src/c++/expensetracker.cpp:55): append one record at the end. -/
def emplaceBack (expenses : List Expense) (exp : Expense) : List Expense :=
  expenses ++ [exp]

/-- Value of an ASCII digit character. -/
def digitVal (c : Char) : Nat := c.toNat - 48

/-- Gregorian leap-year test, as used by the C library calendar. -/
def isLeapYear (y : Nat) : Bool :=
  y % 4 == 0 && (y % 100 != 0 || y % 400 == 0)

/-- Number of days in month `m` (1-12) of year `y`. -/
def daysInMonth (y m : Nat) : Nat :=
  if m = 2 then (if isLeapYear y then 29 else 28)
  else if m = 4 ∨ m = 6 ∨ m = 9 ∨ m = 11 then 30
  else 31

/-- `mktime`'s field normalization restricted to the values `strptime`
with format `%m-%d-%Y` can produce (month 1-12, day 1-31): a day count
past the end of the month rolls over into the following month.  With
day ≤ 31 the overflow is at most 3 days, so a single carry step is the
whole normalization. -/
def mktimeNormalize (y m d : Nat) : Nat × Nat × Nat :=
  if d ≤ daysInMonth y m then (y, m, d)
  else if 12 ≤ m then (y + 1, 1, d - daysInMonth y m)
  else (y, m + 1, d - daysInMonth y m)

/-- `parseDateToInteger` of the second console variant: length check,
`strptime(dateStr, "%m-%d-%Y", ...)` on the canonical `MM-DD-YYYY` shape
(two-digit month in 1-12, two-digit day in 1-31, dashes at positions 2
and 5, four-digit year), `mktime` normalization of the parsed fields,
a 1900-2100 year-range check, and the `YYYYMMDD` ordinal
`year*10000 + month*100 + day`; `-1` signals failure. -/
def parseDateToInteger (dateStr : String) : Int :=
  match dateStr.data with
  | [m1, m0, h1, d1, d0, h2, y3, y2, y1, y0] =>
    if m1.isDigit ∧ m0.isDigit ∧ h1 = '-' ∧ d1.isDigit ∧ d0.isDigit ∧
        h2 = '-' ∧ y3.isDigit ∧ y2.isDigit ∧ y1.isDigit ∧ y0.isDigit then
      let month := digitVal m1 * 10 + digitVal m0
      let day := digitVal d1 * 10 + digitVal d0
      let year := digitVal y3 * 1000 + digitVal y2 * 100 +
                  digitVal y1 * 10 + digitVal y0
      if 1 ≤ month ∧ month ≤ 12 ∧ 1 ≤ day ∧ day ≤ 31 then
        match mktimeNormalize year month day with
        | (ny, nm, nd) =>
          if 1900 ≤ ny ∧ ny ≤ 2100 then
            ((ny : Int) * 10000 + (nm : Int) * 100 + (nd : Int))
          else -1
      else -1
    else -1
  | _ => -1

/-- GUI expense record (src/ExpenseTrackerGUI/mainwindow.cpp, struct
Expense): the `QDate` is embedded as its comparable day ordinal. -/
structure GExpense where
  date : Int
  amount : ℚ
  category : String
  description : String
deriving DecidableEq

/-- `MainWindow::applyFilters` (mainwindow.cpp:70-89): skip a record when
its date lies outside `[fromDate, toDate]`, skip it when a concrete
category (not the sentinel `"All"`) is selected and differs from the
record's category by exact `QString` equality, append it otherwise. -/
def applyFilters (expenses : List GExpense)
    (fromDate toDate : Int) (selectedCategory : String) : List GExpense :=
  expenses.filter fun exp =>
    if exp.date < fromDate ∨ toDate < exp.date then false
    else if selectedCategory ≠ "All" ∧ exp.category ≠ selectedCategory then false
    else true

/-- GUI grand total accumulated by `MainWindow::updateSummary`
(mainwindow.cpp:113-121): left fold of `total += e.amount` from 0. -/
def grandTotalG (expenses : List GExpense) : ℚ :=
  expenses.foldl (fun acc exp => acc + exp.amount) 0

/-- GUI per-category totals (`QMap<QString,double>` accumulated by
`MainWindow::updateSummary`): key-sorted unique-key association list. -/
def categoryTotalsG (expenses : List GExpense) : List (String × ℚ) :=
  expenses.foldl (fun m exp => addToTotals m exp.category exp.amount) []

/-- `MainWindow::addExpense` (mainwindow.cpp:64-68): unconditionally
append the record to the store (`emplace_back`); no validation here. -/
def addExpenseG (expenses : List GExpense) (exp : GExpense) : List GExpense :=
  expenses ++ [exp]

/-- `MainWindow::onAddExpense` (mainwindow.cpp:154-178).  The result of
`amountText.toDouble(&ok)` is embedded as `Option ℚ` (`none` = `!ok`,
non-numeric text).  Returns the new store plus `true` when a warning was
shown and the operation aborted. -/
def onAddExpense (expenses : List GExpense) (amountParse : Option ℚ)
    (category : String) (date : Int) (description : String) :
    List GExpense × Bool :=
  match amountParse with
  | none => (expenses, true)
  | some amount =>
    if amount ≤ 0 then (expenses, true)
    else if category = "Select a category" then (expenses, true)
    else (addExpenseG expenses ⟨date, amount, category, description⟩, false)

/-- Console `addExpense`'s amount-validation loop
(src/c++/expensetracker.cpp:41-46): `while (!(cin >> amount) || amount <= 0)`
re-prompts.  The input stream is a list of read attempts (`none` = a read
that failed, non-numeric text); the loop returns the first successfully
read positive amount together with the unread rest of the stream, or
`none` when the stream is exhausted (the real loop would keep prompting). -/
def readValidAmount : List (Option ℚ) → Option (ℚ × List (Option ℚ))
  | [] => none
  | none :: rest => readValidAmount rest
  | some amount :: rest =>
    if amount ≤ 0 then readValidAmount rest else some (amount, rest)

/-- The six branches of the console menu `switch`
(src/c++/expensetracker.cpp:169-192), plus the `default` branch. -/
inductive MenuAction where
  | add
  | viewAll
  | filterDate
  | filterCat
  | summary
  | exit
  | unexpectedError
deriving DecidableEq

/-- The console `switch (choice)` dispatch: choices 1-6 select the six
actions, anything else falls into the `default` branch. -/
def dispatch (choice : Int) : MenuAction :=
  if choice = 1 then .add
  else if choice = 2 then .viewAll
  else if choice = 3 then .filterDate
  else if choice = 4 then .filterCat
  else if choice = 5 then .summary
  else if choice = 6 then .exit
  else .unexpectedError

/-- The console `do { ... } while (choice != 6)` loop
(src/c++/expensetracker.cpp:152-193) with the inner choice-validation
loop (`while (!(cin >> choice) || choice < 1 || choice > 6)`) fused in.
The input stream is the list of menu-choice read attempts (`none` = a
failed numeric read).  A failed read or an out-of-range number is
consumed with a re-prompt and no action; a valid choice is dispatched,
and the loop goes on unless the choice was 6.  The returned trace lists
the dispatched actions in order. -/
def menuLoop : List (Option Int) → List MenuAction
  | [] => []
  | none :: rest => menuLoop rest
  | some choice :: rest =>
    if choice < 1 ∨ 6 < choice then menuLoop rest
    else dispatch choice :: (if choice = 6 then [] else menuLoop rest)

/-- The non-store inputs one menu iteration may consume: the validated
fields of a new expense (choice 1), a date range (choice 3), and a
category filter (choice 4). -/
structure StepInput where
  date : String
  amount : ℚ
  category : String
  description : String
  startDateStr : String
  endDateStr : String
  categoryFilter : String

/-- One dispatched iteration of the console menu acting on the store:
choice 1 runs `addExpense` (appends the one new record), choices 2-5
only read the store (`const&` in the source) and produce the displayed
records, choice 6 exits, and the `default` branch only prints.  Returns
the store after the iteration and the records displayed by it. -/
def menuStep (expenses : List Expense) (choice : Int) (inp : StepInput) :
    List Expense × List Expense :=
  if choice = 1 then
    (emplaceBack expenses ⟨inp.date, inp.amount, inp.category, inp.description⟩, [])
  else if choice = 2 then (expenses, expenses)
  else if choice = 3 then
    (expenses, filterExpensesByDate expenses inp.startDateStr inp.endDateStr)
  else if choice = 4 then
    (expenses, filterExpensesByCategory expenses inp.categoryFilter)
  else (expenses, [])

/-! ## Theorems -/

/-- C1: the spec and the function's own contract say `parseDateToInteger`
returns the invalid-date signal `-1` for any 10-character `MM-DD-YYYY`
string that does not denote an existing calendar date, in particular
`"02-30-2024"`, and a valid ordinal for every existing date, in
particular `"02-29-2024"`, without silently normalizing invalid dates.
The code accepts the leap day and rejects malformed shapes and months
over 12, but `mktime` silently normalizes an overflowing day instead of
failing: Feb 30, 2024 comes back as the valid ordinal 20240301
(Mar 1, 2024) rather than `-1`, and Apr 31 comes back as May 1.  This
theorem records the code's actual values at those inputs. -/
theorem parseDateToInteger_normalizes_invalid :
    parseDateToInteger "02-30-2024" = 20240301 ∧
    parseDateToInteger "02-29-2024" = 20240229 ∧
    parseDateToInteger "04-31-2024" = 20240501 ∧
    parseDateToInteger "13-01-2024" = -1 ∧
    parseDateToInteger "2024-02-29" = -1 ∧
    parseDateToInteger "02-29-24" = -1 := by decide

/-- C2, counterexample: the claim that the category filter matches
case-insensitively for every record sequence fails on the GUI's
`applyFilters`, which compares categories with case-sensitive `QString`
equality: on a store holding one record of category `"food"` inside the
date range, the filter strings `"food"` and `"Food"` — differing only in
letter case — select different record sets. -/
theorem applyFilters_case_sensitive_cex :
    applyFilters [⟨20240105, 1, "food", "x"⟩] 20240101 20240131 "food"
      = [⟨20240105, 1, "food", "x"⟩] ∧
    applyFilters [⟨20240105, 1, "food", "x"⟩] 20240101 20240131 "Food" = [] := by
  decide

/-- C2, amended: the console category filter selects exactly the records
whose category equals the filter string after lower-casing both, so two
filter strings with the same lower-casing select the same records; the
GUI `applyFilters` instead selects by exact (case-sensitive) category
equality, with `"All"` as the no-filter sentinel, alongside the date
range. -/
theorem categoryFilter_amended (es : List Expense) (cf cg : String)
    (h : strLower cf = strLower cg)
    (gs : List GExpense) (f u : Int) (sc : String) :
    (∀ x, x ∈ filterExpensesByCategory es cf ↔
        x ∈ es ∧ strLower x.category = strLower cf) ∧
    filterExpensesByCategory es cf = filterExpensesByCategory es cg ∧
    (∀ y, y ∈ applyFilters gs f u sc ↔
        y ∈ gs ∧ f ≤ y.date ∧ y.date ≤ u ∧ (sc = "All" ∨ y.category = sc)) := by
  refine ⟨?_, ?_, ?_⟩
  · intro x
    simp [filterExpensesByCategory, List.mem_filter]
  · unfold filterExpensesByCategory
    rw [h]
  · intro y
    simp only [applyFilters, List.mem_filter]
    constructor
    · rintro ⟨hy, hk⟩
      by_cases h1 : y.date < f ∨ u < y.date
      · simp [h1] at hk
      · by_cases h2 : sc ≠ "All" ∧ y.category ≠ sc
        · simp [h1, h2] at hk
        · push_neg at h1 h2
          refine ⟨hy, h1.1, h1.2, ?_⟩
          by_cases hall : sc = "All"
          · exact Or.inl hall
          · exact Or.inr (h2 hall)
    · rintro ⟨hy, h1, h2, h3⟩
      refine ⟨hy, ?_⟩
      rw [if_neg (by push_neg; exact ⟨h1, h2⟩)]
      rcases h3 with h3 | h3
      · rw [if_neg (by simp [h3])]
      · rw [if_neg (by simp [h3])]

/-- C2, witness: the console filter applied with `"food"` and `"Food"`
to a concrete one-record store yields the same selection. -/
theorem categoryFilter_amended_witness :
    filterExpensesByCategory [⟨"2024-01-05", 1, "Food", "x"⟩] "food"
      = filterExpensesByCategory [⟨"2024-01-05", 1, "Food", "x"⟩] "Food" :=
  (categoryFilter_amended [⟨"2024-01-05", 1, "Food", "x"⟩] "food" "Food"
    (by decide) [] 0 0 "All").2.1

/-- C3: for every record sequence and every date range, the console
date filter selects exactly the records whose date lies in the
inclusive range under `std::string` lexicographic comparison, and the
GUI `applyFilters` with the `"All"` sentinel selects exactly the
records whose date ordinal lies in the inclusive range; both outputs
are sublists of the input — a subsequence preserving the original
relative order in which no record occurs more often than it did. -/
theorem filterByDate_range_subsequence (es : List Expense) (s t : String)
    (gs : List GExpense) (f u : Int) :
    (∀ x, x ∈ filterExpensesByDate es s t ↔
      x ∈ es ∧ strLe s x.date = true ∧ strLe x.date t = true) ∧
    (filterExpensesByDate es s t).Sublist es ∧
    (∀ x, List.count x (filterExpensesByDate es s t) ≤ List.count x es) ∧
    (∀ y, y ∈ applyFilters gs f u "All" ↔ y ∈ gs ∧ f ≤ y.date ∧ y.date ≤ u) ∧
    (applyFilters gs f u "All").Sublist gs ∧
    (∀ y, List.count y (applyFilters gs f u "All") ≤ List.count y gs) := by
  refine ⟨?_, List.filter_sublist _, ?_, ?_, List.filter_sublist _, ?_⟩
  · intro x
    simp [filterExpensesByDate, List.mem_filter]
  · intro x
    exact (List.filter_sublist _).count_le x
  · intro y
    simp only [applyFilters, List.mem_filter]
    constructor
    · rintro ⟨hy, hk⟩
      by_cases h1 : y.date < f ∨ u < y.date
      · simp [h1] at hk
      · push_neg at h1
        exact ⟨hy, h1.1, h1.2⟩
    · rintro ⟨hy, h1, h2⟩
      refine ⟨hy, ?_⟩
      rw [if_neg (by push_neg; exact ⟨h1, h2⟩)]
      rw [if_neg (by simp)]
  · intro y
    exact (List.filter_sublist _).count_le y

/-- A left fold of `acc + g x` starting from `a` is `a` plus the sum of
the mapped values. -/
theorem foldl_add_eq_sum {α : Type} (g : α → ℚ) (l : List α) (a : ℚ) :
    l.foldl (fun acc x => acc + g x) a = a + (l.map g).sum := by
  induction l generalizing a with
  | nil => simp
  | cons x xs ih => simp [ih, add_assoc]

/-- C4: the console and GUI grand-total accumulators both equal the sum
of the amounts of the records, and the value is invariant under any
permutation of the record sequence (exact over the rational amounts of
the embedding). -/
theorem grandTotal_sum_order_invariant (es es' : List Expense) (h : es.Perm es')
    (gs gs' : List GExpense) (hg : gs.Perm gs') :
    grandTotal es = (es.map Expense.amount).sum ∧
    grandTotal es = grandTotal es' ∧
    grandTotalG gs = (gs.map GExpense.amount).sum ∧
    grandTotalG gs = grandTotalG gs' := by
  refine ⟨?_, ?_, ?_, ?_⟩
  · simpa using foldl_add_eq_sum Expense.amount es 0
  · unfold grandTotal
    rw [foldl_add_eq_sum, foldl_add_eq_sum, (h.map Expense.amount).sum_eq]
  · simpa using foldl_add_eq_sum GExpense.amount gs 0
  · unfold grandTotalG
    rw [foldl_add_eq_sum, foldl_add_eq_sum, (hg.map GExpense.amount).sum_eq]

/-- C4, witness: two concrete records added in either order give the
same grand total. -/
theorem grandTotal_sum_order_invariant_witness :
    grandTotal [⟨"2024-01-05", 25.50, "Food", "x"⟩, ⟨"2024-02-10", 60, "Transport", "y"⟩]
      = grandTotal [⟨"2024-02-10", 60, "Transport", "y"⟩, ⟨"2024-01-05", 25.50, "Food", "x"⟩] :=
  (grandTotal_sum_order_invariant
    [⟨"2024-01-05", 25.50, "Food", "x"⟩, ⟨"2024-02-10", 60, "Transport", "y"⟩]
    [⟨"2024-02-10", 60, "Transport", "y"⟩, ⟨"2024-01-05", 25.50, "Food", "x"⟩]
    (List.Perm.swap _ _ _) [] [] (List.Perm.refl _)).2.1

/-- The console amount-validation loop only ever returns a positive
amount: every rejected (failed-read or non-positive) attempt is skipped
with a re-prompt. -/
theorem readValidAmount_pos (l : List (Option ℚ)) :
    ∀ a r, readValidAmount l = some (a, r) → 0 < a := by
  induction l with
  | nil => intro a r h; simp [readValidAmount] at h
  | cons o rest ih =>
    intro a r h
    match o with
    | none => exact ih a r (by simpa [readValidAmount] using h)
    | some b =>
      by_cases hb : b ≤ 0
      · exact ih a r (by simpa [readValidAmount, hb] using h)
      · simp [readValidAmount, hb] at h
        obtain ⟨rfl, rfl⟩ := h
        exact lt_of_not_le hb

/-- C5: submitting a record whose amount is non-numeric (`toDouble`
fails) or non-positive is rejected at `MainWindow::onAddExpense`: the
store is left exactly as it was, a warning is shown instead of
terminating, and the grand total and per-category totals of the store
are unchanged, so the rejected amount never contributes to them; and
the console entry point's validation loop only ever hands a positive
amount to the store. -/
theorem onAddExpense_rejects_invalid (es : List GExpense) (ap : Option ℚ)
    (c : String) (d : Int) (descr : String)
    (h : ap = none ∨ ∃ a, ap = some a ∧ a ≤ 0)
    (stream : List (Option ℚ)) (a : ℚ) (rest : List (Option ℚ))
    (hr : readValidAmount stream = some (a, rest)) :
    (onAddExpense es ap c d descr).1 = es ∧
    (onAddExpense es ap c d descr).2 = true ∧
    grandTotalG (onAddExpense es ap c d descr).1 = grandTotalG es ∧
    categoryTotalsG (onAddExpense es ap c d descr).1 = categoryTotalsG es ∧
    0 < a := by
  have hstate : (onAddExpense es ap c d descr) = (es, true) := by
    rcases h with rfl | ⟨b, rfl, hb⟩
    · rfl
    · simp [onAddExpense, hb]
  rw [hstate]
  exact ⟨rfl, rfl, rfl, rfl, readValidAmount_pos stream a rest hr⟩

/-- C5, witness: submitting amount `-5` to an empty store leaves it
empty with a warning, and a console stream whose first attempt reads
`2` yields that positive amount. -/
theorem onAddExpense_rejects_invalid_witness :
    (onAddExpense [] (some (-5)) "Food" 20240105 "x").1 = [] ∧
    (onAddExpense [] (some (-5)) "Food" 20240105 "x").2 = true ∧
    grandTotalG (onAddExpense [] (some (-5)) "Food" 20240105 "x").1 = grandTotalG [] ∧
    categoryTotalsG (onAddExpense [] (some (-5)) "Food" 20240105 "x").1 = categoryTotalsG [] ∧
    (0 : ℚ) < 2 :=
  onAddExpense_rejects_invalid [] (some (-5)) "Food" 20240105 "x"
    (Or.inr ⟨-5, rfl, by norm_num⟩) [some 2] 2 [] (by decide)

/-- C6: the aggregator yields grand total `0` and an empty per-category
mapping on the empty sequence, and a date range excluding every record
of the store filters to the empty sequence, whose aggregation is again
the zero grand total — an ordinary outcome, not an error. -/
theorem aggregate_empty_is_zero (es : List Expense) (s t : String)
    (h : ∀ x ∈ es, ¬(strLe s x.date = true ∧ strLe x.date t = true)) :
    grandTotal [] = 0 ∧ categoryTotals [] = [] ∧
    filterExpensesByDate es s t = [] ∧
    grandTotal (filterExpensesByDate es s t) = 0 ∧
    categoryTotalsG [] = [] := by
  have hf : filterExpensesByDate es s t = [] := by
    rw [filterExpensesByDate, List.filter_eq_nil_iff]
    intro x hx
    have := h x hx
    simp only [Bool.and_eq_true]
    tauto
  exact ⟨rfl, rfl, hf, by rw [hf]; rfl, rfl⟩

/-- C6, witness: a 2025 date range excludes the single 2024 record, so
the filtered view is empty and totals to zero. -/
theorem aggregate_empty_is_zero_witness :
    grandTotal [] = 0 ∧ categoryTotals [] = [] ∧
    filterExpensesByDate [⟨"2024-01-05", 25.50, "Food", "x"⟩] "2025-01-01" "2025-12-31" = [] ∧
    grandTotal (filterExpensesByDate [⟨"2024-01-05", 25.50, "Food", "x"⟩] "2025-01-01" "2025-12-31") = 0 ∧
    categoryTotalsG [] = [] :=
  aggregate_empty_is_zero [⟨"2024-01-05", 25.50, "Food", "x"⟩] "2025-01-01" "2025-12-31"
    (by decide)

/-- C7: starting from the empty store and appending
{2024-01-05, 25.50, Food} then {2024-02-10, 60.00, Transport},
filtering with the inclusive range 2024-01-01 to 2024-01-31 returns
exactly the first record, whose aggregation is the per-category mapping
{Food ↦ 25.50} and grand total 25.50 — in the console embedding (ISO
date strings) and in the GUI embedding (date ordinals, `"All"`
category) alike. -/
theorem scenario_filter_and_totals :
    filterExpensesByDate
      (emplaceBack (emplaceBack [] ⟨"2024-01-05", 25.50, "Food", "Lunch"⟩)
        ⟨"2024-02-10", 60, "Transport", "Metro"⟩)
      "2024-01-01" "2024-01-31"
      = [⟨"2024-01-05", 25.50, "Food", "Lunch"⟩] ∧
    categoryTotals (filterExpensesByDate
      (emplaceBack (emplaceBack [] ⟨"2024-01-05", 25.50, "Food", "Lunch"⟩)
        ⟨"2024-02-10", 60, "Transport", "Metro"⟩)
      "2024-01-01" "2024-01-31") = [("Food", 25.50)] ∧
    grandTotal (filterExpensesByDate
      (emplaceBack (emplaceBack [] ⟨"2024-01-05", 25.50, "Food", "Lunch"⟩)
        ⟨"2024-02-10", 60, "Transport", "Metro"⟩)
      "2024-01-01" "2024-01-31") = 25.50 ∧
    applyFilters
      (addExpenseG (addExpenseG [] ⟨20240105, 25.50, "Food", "Lunch"⟩)
        ⟨20240210, 60, "Transport", "Metro"⟩)
      20240101 20240131 "All"
      = [⟨20240105, 25.50, "Food", "Lunch"⟩] ∧
    categoryTotalsG (applyFilters
      (addExpenseG (addExpenseG [] ⟨20240105, 25.50, "Food", "Lunch"⟩)
        ⟨20240210, 60, "Transport", "Metro"⟩)
      20240101 20240131 "All") = [("Food", 25.50)] ∧
    grandTotalG (applyFilters
      (addExpenseG (addExpenseG [] ⟨20240105, 25.50, "Food", "Lunch"⟩)
        ⟨20240210, 60, "Transport", "Metro"⟩)
      20240101 20240131 "All") = 25.50 := by
  refine ⟨rfl, rfl, ?_, rfl, rfl, ?_⟩
  · show (0 : ℚ) + 25.50 = 25.50
    norm_num
  · show (0 : ℚ) + 25.50 = 25.50
    norm_num

/-- Every choice the validated dispatch can see lies in 1-6, and none
of those reaches the `default` branch. -/
theorem dispatch_ne_error (c : Int) (h1 : 1 ≤ c) (h2 : c ≤ 6) :
    dispatch c ≠ MenuAction.unexpectedError := by
  unfold dispatch
  interval_cases c <;> simp

/-- Among the choices 1-6, exactly choice 6 dispatches to exit. -/
theorem dispatch_eq_exit_iff (c : Int) (h1 : 1 ≤ c) (h2 : c ≤ 6) :
    dispatch c = MenuAction.exit ↔ c = 6 := by
  unfold dispatch
  interval_cases c <;> simp

/-- No trace of the console menu loop contains the `default`-branch
error action. -/
theorem menuLoop_no_error (inputs : List (Option Int)) :
    ∀ a ∈ menuLoop inputs, a ≠ MenuAction.unexpectedError := by
  induction inputs with
  | nil => intro a ha; simp [menuLoop] at ha
  | cons o rest ih =>
    intro a ha
    match o with
    | none => exact ih a (by simpa [menuLoop] using ha)
    | some c =>
      by_cases hc : c < 1 ∨ 6 < c
      · exact ih a (by simpa [menuLoop, hc] using ha)
      · push_neg at hc
        rw [menuLoop, if_neg (by push_neg; exact hc)] at ha
        rcases List.mem_cons.mp ha with rfl | ha'
        · exact dispatch_ne_error c hc.1 hc.2
        · by_cases h6 : c = 6
          · simp [h6] at ha'
          · exact ih a (by simpa [h6] using ha')

/-- The exit action can only stand at the very end of a menu-loop
trace: the loop runs no action after a 6 is dispatched. -/
theorem menuLoop_exit_last (inputs : List (Option Int)) :
    ∀ pre post, menuLoop inputs = pre ++ MenuAction.exit :: post → post = [] := by
  induction inputs with
  | nil => intro pre post h; simp [menuLoop] at h
  | cons o rest ih =>
    intro pre post h
    match o with
    | none => exact ih pre post (by simpa [menuLoop] using h)
    | some c =>
      by_cases hc : c < 1 ∨ 6 < c
      · exact ih pre post (by simpa [menuLoop, hc] using h)
      · push_neg at hc
        rw [menuLoop, if_neg (by push_neg; exact hc)] at h
        by_cases h6 : c = 6
        · rw [if_pos h6] at h
          match pre with
          | [] => simpa using (List.cons.injEq _ _ _ _ ▸ h).2.symm
          | p :: pre' =>
            have := (List.cons_eq_cons.mp h).2
            exact absurd this (by simp)
        · rw [if_neg h6] at h
          match pre with
          | [] =>
            have hd := (List.cons_eq_cons.mp h).1
            exact absurd hd (by
              rw [dispatch_eq_exit_iff c hc.1 hc.2]
              exact h6)
          | p :: pre' =>
            exact ih pre' post (List.cons_eq_cons.mp h).2

/-- C8: the console menu loop consumes an out-of-range number or a
failed numeric read with a re-prompt and no action; a valid choice is
dispatched, every dispatched choice lies in 1-6, so the `default`
branch of the switch never appears in any trace; the loop stops
immediately after dispatching choice 6 and continues after any other
valid choice — exit is always the last action of a trace. -/
theorem menuLoop_validated_dispatch (inputs : List (Option Int)) (c c' : Int)
    (rest : List (Option Int)) (hc : c < 1 ∨ 6 < c)
    (hc' : 1 ≤ c' ∧ c' ≤ 6 ∧ c' ≠ 6) :
    menuLoop (some c :: rest) = menuLoop rest ∧
    menuLoop (none :: rest) = menuLoop rest ∧
    menuLoop (some 6 :: rest) = [MenuAction.exit] ∧
    menuLoop (some c' :: rest) = dispatch c' :: menuLoop rest ∧
    dispatch c' ≠ MenuAction.unexpectedError ∧
    (∀ a ∈ menuLoop inputs, a ≠ MenuAction.unexpectedError) ∧
    (∀ pre post, menuLoop inputs = pre ++ MenuAction.exit :: post → post = []) := by
  obtain ⟨h1, h2, h3⟩ := hc'
  refine ⟨?_, rfl, ?_, ?_, dispatch_ne_error c' h1 h2,
    menuLoop_no_error inputs, menuLoop_exit_last inputs⟩
  · rw [menuLoop, if_pos hc]
  · rw [menuLoop]; norm_num [dispatch]
  · rw [menuLoop, if_neg (by push_neg; exact ⟨h1, h2⟩), if_neg h3]

/-- C8, witness: the invalid choice 7 is skipped without an action, and
the stream 2-then-6 produces the view action followed by exit. -/
theorem menuLoop_validated_dispatch_witness :
    menuLoop [some 7] = menuLoop [] ∧
    menuLoop [some 2, some 6] = [MenuAction.viewAll, MenuAction.exit] :=
  ⟨(menuLoop_validated_dispatch [] 7 2 [] (by norm_num) (by norm_num)).1,
   by
    have h := (menuLoop_validated_dispatch [some 6] 7 2 [some 6] (by norm_num)
      (by norm_num)).2.2.2.1
    rw [h]
    rfl⟩

/-- C9: the store is append-only — the console `emplace_back` and the
GUI `addExpense` always succeed, unconditionally appending the given
record at the end with no validation of their own, and every dispatched
console menu iteration either appends exactly the one new record (add)
or returns the store untouched (view, filters, summary, exit, default);
the old sequence is always an unmodified prefix of the new one, so no
operation deletes or mutates an existing record. -/
theorem store_append_only (es : List Expense) (exp : Expense) (choice : Int)
    (inp : StepInput) (gs : List GExpense) (g : GExpense) :
    emplaceBack es exp = es ++ [exp] ∧
    addExpenseG gs g = gs ++ [g] ∧
    ((menuStep es choice inp).1 = es ∨
      (menuStep es choice inp).1
        = es ++ [⟨inp.date, inp.amount, inp.category, inp.description⟩]) ∧
    (∃ tail, (menuStep es choice inp).1 = es ++ tail) := by
  have h3 : (menuStep es choice inp).1 = es ∨
      (menuStep es choice inp).1
        = es ++ [⟨inp.date, inp.amount, inp.category, inp.description⟩] := by
    unfold menuStep
    split
    · exact Or.inr rfl
    · split
      · exact Or.inl rfl
      · split
        · exact Or.inl rfl
        · split
          · exact Or.inl rfl
          · exact Or.inl rfl
  refine ⟨rfl, rfl, h3, ?_⟩
  rcases h3 with h | h
  · exact ⟨[], by rw [h, List.append_nil]⟩
  · exact ⟨_, h⟩

end ExpenseTracker
